import Mathlib

/-!
Verification development for the image-preview content script
(src/index.js of andrew54068/image-preview-extension).

The file shallowly embeds the script in Lean:
* `getImageUrl` embeds the LinkMatcher function (src/index.js lines 83-100):
  regular-expression tests are translated into executable suffix and
  literal-match functions over the character list of the href string.
* the cache object `imageCache` (lines 19-66) is embedded as an
  insertion-ordered association list with JavaScript `Map` semantics.
* the `PreviewContainer` module and the `showPreview` / `hidePreview` /
  `img.onload` / `img.onerror` logic (lines 105-332) are embedded as pure
  state-transition functions over an explicit controller state.
* the second, older script variant appended at the end of the source file
  (lines 435-515) is embedded separately where a claim refers to it.

All definitions are collected first; the lemmas and theorems follow.
-/

namespace ImagePreview

/-! ### LinkMatcher: `getImageUrl` (src/index.js lines 83-100)

The extension test is the regular expression
`\.(jpe?g|png|gif|webp|bmp|svg)$` with the case-insensitive flag, applied
to the whole href string.  We embed it as: the lower-cased character list
of the href ends with one of the lower-case suffixes below.  (The `i`
flag of a JavaScript regex without the `u` flag folds ASCII letters only;
`Char.toLower` also folds ASCII letters only, so the embedding is exact.)
-/

/-- The seven suffixes denoted by `\.(jpe?g|png|gif|webp|bmp|svg)$`. -/
def extSuffixes : List (List Char) :=
  [".jpg".data, ".jpeg".data, ".png".data, ".gif".data,
   ".webp".data, ".bmp".data, ".svg".data]

/-- ASCII-only lower casing, matching the canonicalisation a JavaScript
regex without the `u` flag performs for ASCII pattern letters. -/
def lcChar (c : Char) : Char := c.toLower

/-- `endsWithList l suf` holds when `suf` is a suffix of `l`. -/
def endsWithList (l suf : List Char) : Bool :=
  l.drop (l.length - suf.length) == suf

/-- Embedding of `/\.(jpe?g|png|gif|webp|bmp|svg)$/i.test(urlStr)`
(src/index.js line 87): the whole href string, lower-cased, ends in one
of the image-extension suffixes. -/
def hasImageExtension (s : String) : Bool :=
  extSuffixes.any (fun suf => endsWithList (s.data.map lcChar) suf)

/-- The character class `[a-zA-Z0-9]` of the imgur rule, as the explicit
finite set of characters it denotes. -/
def alnumChars : List Char :=
  "abcdefghijklmnopqrstuvwxyzABCDEFGHIJKLMNOPQRSTUVWXYZ0123456789".data

def isAlnumChar (c : Char) : Bool := alnumChars.contains c

/-- Matches a literal character sequence at the front of a list,
returning the remainder (the embedding of matching a literal part of a
regular expression). -/
def consumeLit : List Char → List Char → Option (List Char)
  | [], l => some l
  | _ :: _, [] => none
  | p :: ps, c :: cs => if c = p then consumeLit ps cs else none

/-- The `s?` part of `^https?`: one optional literal `s`.  (The regex
alternative of not consuming an initial `s` can only succeed when the
next required character `:` follows, so consuming a leading `s` when
present is equivalent to the backtracking search.) -/
def optS (l : List Char) : List Char :=
  match l with
  | c :: t => if c = 's' then t else l
  | [] => []

/-- Continuation of the imgur regex after the literal `http`: the
optional `s`, the literal `://imgur.com/`, then exactly seven
characters of the class `[a-zA-Z0-9]` up to the end of the string. -/
def imgurAfterHttp (l : List Char) : Option (List Char) :=
  match consumeLit "://imgur.com/".data (optS l) with
  | none => none
  | some rest =>
    if rest.length == 7 && rest.all isAlnumChar then some rest else none

/-- Embedding of `urlStr.match(/^https?:\/\/imgur\.com\/([a-zA-Z0-9]{7})$/)`
(src/index.js line 94): returns the captured 7-character id when the
whole string matches. -/
def imgurId (s : String) : Option (List Char) :=
  match consumeLit "http".data s.data with
  | none => none
  | some r1 => imgurAfterHttp r1

/-- Embedding of `getImageUrl` (src/index.js lines 83-100).  Rule A: an
href ending in an image extension is returned unchanged.  Rule B: an
imgur gallery link is rewritten to a direct image link.  Otherwise
`none` (the function returns `null`). -/
def getImageUrl (s : String) : Option String :=
  if hasImageExtension s then some s
  else
    match imgurId s with
    | some id => some ("https://i.imgur.com/" ++ String.mk id ++ ".jpeg")
    | none => none

/-- Modelled from the spec wording of Rule A (spec-side definition, used
only to state claims that speak about the path component of an href):
the characters of the href before any query or fragment. -/
def hrefPathChars (s : String) : List Char :=
  s.data.takeWhile (fun c => !(c = '?' || c = '#'))

/-- Modelled from the spec wording of Rule A: the path part of the href
ends in a supported image extension, case-insensitively. -/
def specPathEndsInExt (s : String) : Bool :=
  extSuffixes.any (fun suf => endsWithList ((hrefPathChars s).map lcChar) suf)

/-! ### The cache: `imageCache` (src/index.js lines 19-66)

The backing store is a JavaScript `Map`, i.e. an insertion-ordered
key-value map: setting an existing key updates the value in place
(keeping its position), setting a fresh key appends it at the end,
`keys().next().value` is the first key in insertion order, and `delete`
removes the entry with the given key. -/

/-- `CACHE_SIZE_LIMIT` (src/index.js line 69). -/
def CACHE_SIZE_LIMIT : Nat := 50

/-- The shape of the object literal inserted into the cache on a
successful load (src/index.js lines 282-286). -/
structure CacheEntry where
  src : String
  loadTime : Int
  timestamp : Int
deriving DecidableEq

/-- `Map.prototype.set`: update in place when the key is present,
otherwise append at the end. -/
def mapSet {α : Type} (l : List (String × α)) (k : String) (v : α) :
    List (String × α) :=
  if l.any (fun p => p.1 == k) then
    l.map (fun p => if p.1 == k then (k, v) else p)
  else l ++ [(k, v)]

/-- `Map.prototype.delete`: remove the (unique) entry with the key. -/
def mapDelete {α : Type} : List (String × α) → String → List (String × α)
  | [], _ => []
  | p :: t, k => if p.1 == k then t else p :: mapDelete t k

/-- `Map.prototype.has`. -/
def cacheHas {α : Type} (l : List (String × α)) (k : String) : Bool :=
  l.any (fun p => p.1 == k)

/-- `imageCache.get` (lines 24-30): the value when the key is present,
otherwise `null`. -/
def cacheGet {α : Type} (l : List (String × α)) (k : String) : Option α :=
  (l.find? (fun p => p.1 == k)).map Prod.snd

/-- `imageCache.set` (src/index.js lines 38-49): insert, then, when the
size exceeds `CACHE_SIZE_LIMIT`, delete the entry of the first
(oldest-inserted) key. -/
def cacheSet {α : Type} (l : List (String × α)) (k : String) (v : α) :
    List (String × α) :=
  let l2 := mapSet l k v
  if l2.length > CACHE_SIZE_LIMIT then
    match l2 with
    | [] => l2
    | p :: _ => mapDelete l2 p.1
  else l2

/-- A sequence of `imageCache.set` calls applied to the empty cache. -/
def runInserts {α : Type} (ops : List (String × α)) : List (String × α) :=
  ops.foldl (fun c p => cacheSet c p.1 p.2) []

/-- Concrete demonstration input for the capacity claim: 51 pairwise
distinct URLs. -/
def demoUrls : List String := (List.range 51).map (fun i => "u" ++ toString i)

/-! ### The preview controller (first script variant, lines 74-332)

The DOM is modelled by the list of nodes carrying the id
`image-preview-container`, in document order; `PreviewContainer.element`
is modelled as an optional index into that list.  A container node keeps
its class-attribute tokens, its child nodes (an error-message div or an
img element), its inline position styles, its inline z-index, and its
measured dimensions (an oracle for `offsetWidth` / `offsetHeight`). -/

/-- The x/y page coordinates carried by a mouse event. -/
structure MouseEv where
  pageX : Int
  pageY : Int
deriving DecidableEq

/-- The layout quantities read by `adjustPosition`
(`window.innerWidth`, `window.innerHeight`, `window.scrollX`,
`window.scrollY`). -/
structure Viewport where
  innerWidth : Int
  innerHeight : Int
  scrollX : Int
  scrollY : Int
deriving DecidableEq

/-- A child node of the preview container: the error-message div built
by `showError`, or an image element. -/
inductive ChildNode where
  | errorMessage (text : String)
  | image (src : String)
deriving DecidableEq

/-- A DOM node with id `image-preview-container`. -/
structure Container where
  classTokens : List String
  children : List ChildNode
  styleTop : Option Int
  styleLeft : Option Int
  zIndex : Option String
  offsetWidth : Int
  offsetHeight : Int
deriving DecidableEq

/-- The `PreviewContainer` module state: the container nodes present in
the document, and the module field `element` as an index into them
(`none` models a null reference). -/
structure PCState where
  dom : List Container
  element : Option Nat
deriving DecidableEq

/-- Replace the element at an index of a list, leaving other positions
and out-of-range indices unchanged. -/
def modifyAt {α : Type} : List α → Nat → (α → α) → List α
  | [], _, _ => []
  | c :: t, 0, f => f c :: t
  | c :: t, n + 1, f => c :: modifyAt t n f

/-- A freshly created, still unstyled div. -/
def newContainer : Container :=
  { classTokens := [], children := [], styleTop := none, styleLeft := none,
    zIndex := none, offsetWidth := 0, offsetHeight := 0 }

/-- `PreviewContainer.create` (lines 113-130): reuse the first node with
the container id after clearing its contents and class attribute, or
append a fresh node to the body when none exists. -/
def pcCreate (p : PCState) : PCState :=
  match p.dom with
  | [] => { dom := [newContainer], element := some 0 }
  | c :: rest =>
    { dom := ({ c with children := [], classTokens := [] }) :: rest,
      element := some 0 }

/-- Apply a mutation to the node `this.element` refers to. -/
def updateElem (p : PCState) (f : Container → Container) : PCState :=
  match p.element with
  | some i => { p with dom := modifyAt p.dom i f }
  | none => p

/-- `PreviewContainer.showLoading` (lines 135-146): create if needed,
clear the contents, set the class to `loading` and the z-index. -/
def pcShowLoading (p : PCState) : PCState :=
  let p := if p.element = none then pcCreate p else p
  updateElem p (fun c =>
    { c with children := [], classTokens := ["loading"], zIndex := some "10000" })

/-- `PreviewContainer.showError` (lines 152-162): create if needed,
clear the contents, set the class to `error`, append a div with the
message as its text content. -/
def pcShowError (p : PCState) (message : String) : PCState :=
  let p := if p.element = none then pcCreate p else p
  updateElem p (fun c =>
    { c with children := [ChildNode.errorMessage message],
             classTokens := ["error"] })

/-- `PreviewContainer.positionAtCursor` (lines 168-177): place the
container 20px right of and 20px below the pointer. -/
def pcPositionAtCursor (p : PCState) (ev : MouseEv) : PCState :=
  match p.element with
  | none => p
  | some _ =>
    updateElem p (fun c =>
      { c with styleTop := some (ev.pageY + 20),
               styleLeft := some (ev.pageX + 20) })

/-- `PreviewContainer.adjustPosition` (lines 183-198): flip to the left
of the pointer when the container would overflow the right viewport
edge, and above the pointer when it would overflow the bottom edge. -/
def pcAdjustPosition (p : PCState) (vp : Viewport) (ev : MouseEv) : PCState :=
  match p.element with
  | none => p
  | some _ =>
    updateElem p (fun c =>
      let left :=
        if ev.pageX + 20 + c.offsetWidth > vp.innerWidth + vp.scrollX then
          ev.pageX - c.offsetWidth - 20
        else ev.pageX + 20
      let top :=
        if ev.pageY + 20 + c.offsetHeight > vp.innerHeight + vp.scrollY then
          ev.pageY - c.offsetHeight - 20
        else ev.pageY + 20
      { c with styleTop := some top, styleLeft := some left })

/-- `PreviewContainer.remove` (lines 203-208). -/
def pcRemove (p : PCState) : PCState :=
  match p.element with
  | none => p
  | some i => { dom := p.dom.eraseIdx i, element := none }

/-- `PreviewContainer.removeAll` (lines 213-223): remove every node with
the container id and null the reference. -/
def pcRemoveAll (_p : PCState) : PCState := { dom := [], element := none }

/-- An image load in flight: the `onload` / `onerror` closures capture
the `imageUrl` and `event` arguments of the `showPreview` call that
created the img element. -/
structure PendingLoad where
  capturedUrl : String
  ev : MouseEv
deriving DecidableEq

/-- The mutable state of the first script variant: the cache, the
`cacheHits` counter (line 72), the `currentImageUrl` token (line 76),
the `PreviewContainer` module, and the set of in-flight loads. -/
structure CtrlState where
  cache : List (String × CacheEntry)
  cacheHits : Nat
  currentImageUrl : Option String
  pc : PCState
  pendingLoads : List PendingLoad
deriving DecidableEq

/-- The state at script start. -/
def initCtrl : CtrlState :=
  { cache := [], cacheHits := 0, currentImageUrl := none,
    pc := { dom := [], element := none }, pendingLoads := [] }

/-- `hideAllImageLoads` (lines 316-319): reset the tracking token. -/
def hideAllImageLoads (st : CtrlState) : CtrlState :=
  { st with currentImageUrl := none }

/-- `showPreview` (lines 231-311), translated statement by statement.
On the cache-hit fast path the code builds an image element with no
handlers attached and returns, so no pending load is registered; on a
miss it registers an img whose `onload` / `onerror` closures capture
`imageUrl` and `event`. -/
def showPreviewStep (st : CtrlState) (ev : MouseEv) (imageUrl : String) :
    CtrlState :=
  -- line 235: hideAllImageLoads()
  let st := hideAllImageLoads st
  -- line 238: currentImageUrl = imageUrl
  let st := { st with currentImageUrl := some imageUrl }
  -- line 241: PreviewContainer.create()
  let st := { st with pc := pcCreate st.pc }
  -- line 244: PreviewContainer.showLoading()
  let st := { st with pc := pcShowLoading st.pc }
  -- line 245: PreviewContainer.positionAtCursor(event)
  let st := { st with pc := pcPositionAtCursor st.pc ev }
  -- line 251: if (imageCache.has(imageUrl))
  if cacheHas st.cache imageUrl then
    -- lines 252-264: cacheHits++; read the cached entry; build an image
    -- element with no handlers; return early
    { st with cacheHits := st.cacheHits + 1 }
  else
    -- lines 271-310: build an img element, register onload and onerror,
    -- set the source to start the load
    { st with pendingLoads :=
        st.pendingLoads ++ [{ capturedUrl := imageUrl, ev := ev }] }

/-- `hidePreview` (lines 324-332): clear the timer and tracking state
and remove every container. -/
def hidePreviewStep (st : CtrlState) : CtrlState :=
  let st := { st with currentImageUrl := none }
  { st with pc := pcRemoveAll st.pc }

/-- A JavaScript runtime error escaping a handler. -/
inductive JsError where
  | referenceError
  | typeError
deriving DecidableEq

/-- The identifiers in scope inside the `img.onload` closure of
`showPreview`: the module-level bindings of the script (lines 4, 7, 14,
19, 69, 72, 75, 76, 83, 105, 231, 316, 324, 336, 337, 387, 395, 410),
the parameters and locals of `showPreview` visible at line 282 (`event`,
`imageUrl`, `previewStartTime`, `img`; the constants `cachedData` and
`cachedImg` are block-scoped to the cache-hit branch), and nothing else.
Browser globals (`document`, `window`, `Image`, `Date`, `console`, ...)
are not listed; none of them is named `loadTime` either. -/
def onloadScope : List String :=
  ["DEBUG", "debugLog", "infoLog", "imageCache", "CACHE_SIZE_LIMIT",
   "cacheHits", "hoverTimeout", "currentImageUrl", "getImageUrl",
   "PreviewContainer", "showPreview", "hideAllImageLoads", "hidePreview",
   "lastHoveredLink", "lastHoveredUrl", "clearImageCache", "getCacheStats",
   "testCache", "event", "imageUrl", "previewStartTime", "img"]

/-- `img.onload` (lines 274-289).  After the stale-load guard the
handler removes the `loading` class and then evaluates the object
literal `{ src: imageUrl, loadTime: loadTime, timestamp: Date.now() }`.
The identifier `loadTime` is declared nowhere in the script (see
`onloadScope`), so this evaluation throws a ReferenceError before
`imageCache.set` can run: the handler never caches the entry, never
attaches the image element and never repositions the container.  The
pair returned is (the error escaping the handler, the state at that
point). -/
def onloadStep (st : CtrlState) (pl : PendingLoad) :
    Option JsError × CtrlState :=
  -- line 276: if (imageUrl !== currentImageUrl) return;
  if some pl.capturedUrl ≠ st.currentImageUrl then (none, st)
  else
    match st.pc.element with
    | none =>
      -- `PreviewContainer.element` is null: the member access on line
      -- 279 throws a TypeError (unreachable through the event wiring)
      (some JsError.typeError, st)
    | some i =>
      -- line 279: PreviewContainer.element.classList.remove('loading')
      let st := { st with pc := { st.pc with
        dom := modifyAt st.pc.dom i
          (fun c => { c with classTokens := c.classTokens.erase "loading" }) } }
      -- lines 282-286: reading the undeclared identifier `loadTime`
      (some JsError.referenceError, st)

/-- `img.onerror` (lines 292-302): after the stale-load guard, show the
fixed error message and adjust the container position. -/
def onerrorStep (vp : Viewport) (st : CtrlState) (pl : PendingLoad) :
    CtrlState :=
  -- line 293: if (imageUrl !== currentImageUrl) return;
  if some pl.capturedUrl ≠ st.currentImageUrl then st
  else
    -- line 298: PreviewContainer.showError('Failed to load image')
    let st := { st with pc := pcShowError st.pc "Failed to load image" }
    -- line 301: PreviewContainer.adjustPosition(event)
    { st with pc := pcAdjustPosition st.pc vp pl.ev }

/-- The externally triggered events of the first variant: a debounced
hover firing `showPreview`, an explicit hide, and the asynchronous
completion (success or failure) of an image load whose closures captured
the given URL and mouse event. -/
inductive CEv where
  | hover (ev : MouseEv) (url : String)
  | hide
  | loadOk (url : String) (ev : MouseEv)
  | loadErr (url : String) (ev : MouseEv)
deriving DecidableEq

/-- One event of the first variant.  A thrown error leaves the state the
handler had built up to the throw, so the state component of `onloadStep`
is the post-event state. -/
def cstep (vp : Viewport) (st : CtrlState) : CEv → CtrlState
  | CEv.hover ev url => showPreviewStep st ev url
  | CEv.hide => hidePreviewStep st
  | CEv.loadOk url ev => (onloadStep st { capturedUrl := url, ev := ev }).2
  | CEv.loadErr url ev => onerrorStep vp st { capturedUrl := url, ev := ev }

/-- Run a trace of events from the initial state. -/
def runTrace (vp : Viewport) (tr : List CEv) : CtrlState :=
  tr.foldl (cstep vp) initCtrl

/-- The URL of the most recently initiated hover that has not been
hidden since, read off a trace (the specification of what
`currentImageUrl` tracks). -/
def trackedUpd (acc : Option String) (e : CEv) : Option String :=
  match e with
  | CEv.hover _ u => some u
  | CEv.hide => none
  | _ => acc

def lastTracked (tr : List CEv) : Option String :=
  tr.foldl trackedUpd none

/-- The container the module field `element` currently refers to. -/
def currentContainer (p : PCState) : Option Container :=
  match p.element with
  | some i => p.dom[i]?
  | none => none

/-- Well-formedness of the index model: the module field `element`
refers to a node that exists.  In the script, `element` holds an actual
node reference, so every reachable state satisfies this; an
out-of-range index has no JavaScript counterpart. -/
def pcWf (p : PCState) : Bool :=
  match p.element with
  | some i => decide (i < p.dom.length)
  | none => true

/-! ### The second script variant (lines 435-515)

`showPreview` (lines 467-494) assigns a brand-new container div to the
module-level variable `previewContainer` without removing or reusing any
existing container; the node is appended to the body only inside the
img onload handler, which reads the CURRENT value of the module-level
variable (`document.body.appendChild(previewContainer)`, line 479).
`hidePreview` (lines 496-502) removes the referenced node.  Container
nodes are identified by a fresh number; the document is the list of
container nodes attached to the body, in insertion order. -/

structure V2State where
  doc : List Nat
  pcVar : Option Nat
  nextId : Nat
deriving DecidableEq

inductive V2Ev where
  | show
  | load
  | hide
deriving DecidableEq

/-- One event of the second variant.  `show` is `showPreview` running
(the fresh div is created detached); `load` is an img onload firing
(`appendChild` moves the node when it is already attached, so the erase
before the append models the move); `hide` is `hidePreview`. -/
def v2step (st : V2State) : V2Ev → V2State
  | V2Ev.show => { st with pcVar := some st.nextId, nextId := st.nextId + 1 }
  | V2Ev.load =>
    match st.pcVar with
    | some n => { st with doc := (st.doc.erase n) ++ [n] }
    | none => st
  | V2Ev.hide =>
    match st.pcVar with
    | some n => { st with doc := st.doc.erase n, pcVar := none }
    | none => st

def v2run (tr : List V2Ev) : V2State :=
  tr.foldl v2step { doc := [], pcVar := none, nextId := 0 }

/-! ## Lemmas and theorems -/

/-! #### Sanity checks on concrete hrefs -/

example : getImageUrl "https://x.com/a/B.PNG" = some "https://x.com/a/B.PNG" := by decide
example : getImageUrl "https://imgur.com/hI9rZU3" = some "https://i.imgur.com/hI9rZU3.jpeg" := by decide
example : getImageUrl "http://imgur.com/hI9rZU3" = some "https://i.imgur.com/hI9rZU3.jpeg" := by decide
example : getImageUrl "https://imgur.com/hI9rZU3/more" = none := by decide
example : getImageUrl "https://imgur.com/short" = none := by decide
example : getImageUrl "https://example.com/page" = none := by decide
example : getImageUrl "https://x.com/a.jpg?w=100" = none := by decide
example : getImageUrl "https://x.com/page?img=.png" = some "https://x.com/page?img=.png" := by decide

/-! #### General lemmas about the LinkMatcher -/

theorem consumeLit_append (p t : List Char) : consumeLit p (p ++ t) = some t := by
  induction p with
  | nil => rfl
  | cons c ps ih => simp [consumeLit, ih]

theorem lc_alnum_ne_dot (c : Char) (hc : isAlnumChar c = true) : lcChar c ≠ '.' := by
  have h : alnumChars.all (fun d => lcChar d != '.') = true := by decide
  have hmem : c ∈ alnumChars := List.elem_iff.mp (by simpa [isAlnumChar, List.contains] using hc)
  simpa using List.all_eq_true.mp h c hmem

theorem endsWith_append_alnum_dot (p q s' : List Char) (hq : q.all isAlnumChar = true)
    (h7 : q.length = 7) (hlen : s'.length ≤ 6) :
    endsWithList ((p ++ q).map lcChar) ('.' :: s') = false := by
  unfold endsWithList
  rw [List.map_append]
  have hlq : (q.map lcChar).length = 7 := by simp [h7]
  have hd : ((p.map lcChar) ++ (q.map lcChar)).length - ('.' :: s').length
      = (p.map lcChar).length + (6 - s'.length) := by
    simp only [List.length_append, List.length_cons, hlq]
    omega
  rw [hd, List.drop_append]
  have hmlt : 6 - s'.length < q.length := by omega
  rw [← List.map_drop, List.drop_eq_getElem_cons hmlt]
  apply beq_eq_false_iff_ne.mpr
  intro hEq
  rw [List.map_cons] at hEq
  injection hEq with hhead htail
  have hmem : q[6 - s'.length] ∈ q := List.getElem_mem hmlt
  exact lc_alnum_ne_dot _ (List.all_eq_true.mp hq _ hmem) hhead

theorem hasImageExtension_append_alnum (p : String) (q : List Char)
    (hq : q.all isAlnumChar = true) (h7 : q.length = 7) :
    hasImageExtension (p ++ String.mk q) = false := by
  have hdata : (p ++ String.mk q).data = p.data ++ q := String.data_append ..
  unfold hasImageExtension extSuffixes
  rw [hdata]
  simp only [List.any_cons, List.any_nil, Bool.or_eq_false_iff]
  refine ⟨?_, ?_, ?_, ?_, ?_, ?_, ?_, trivial⟩ <;>
    exact endsWith_append_alnum_dot _ _ _ hq h7 (by decide)

theorem optS_cons_s (t : List Char) : optS ('s' :: t) = t := by
  simp [optS]

theorem optS_cons_of_ne (c : Char) (t : List Char) (h : ¬ c = 's') :
    optS (c :: t) = c :: t := by
  simp [optS, h]

theorem imgurId_https (u : String) (h7 : u.length = 7) (ha : u.data.all isAlnumChar = true) :
    imgurId ("https://imgur.com/" ++ u) = some u.data := by
  have hdata : ("https://imgur.com/" ++ u).data
      = "http".data ++ (('s' :: "://imgur.com/".data) ++ u.data) := by
    rw [String.data_append]; rfl
  have hlen : u.data.length = 7 := h7
  unfold imgurId
  rw [hdata, consumeLit_append]
  show imgurAfterHttp (('s' :: "://imgur.com/".data) ++ u.data) = some u.data
  unfold imgurAfterHttp
  rw [List.cons_append, optS_cons_s, consumeLit_append]
  show (if (u.data.length == 7 && u.data.all isAlnumChar) = true
      then some u.data else none) = some u.data
  rw [hlen, ha]
  simp

theorem imgurId_http (u : String) (h7 : u.length = 7) (ha : u.data.all isAlnumChar = true) :
    imgurId ("http://imgur.com/" ++ u) = some u.data := by
  have hdata : ("http://imgur.com/" ++ u).data
      = "http".data ++ ((':' :: "//imgur.com/".data) ++ u.data) := by
    rw [String.data_append]; rfl
  have hlen : u.data.length = 7 := h7
  unfold imgurId
  rw [hdata, consumeLit_append]
  show imgurAfterHttp ((':' :: "//imgur.com/".data) ++ u.data) = some u.data
  unfold imgurAfterHttp
  rw [List.cons_append, optS_cons_of_ne _ _ (by decide)]
  have hstep : (':' : Char) :: ("//imgur.com/".data ++ u.data)
      = "://imgur.com/".data ++ u.data := rfl
  rw [hstep, consumeLit_append]
  show (if (u.data.length == 7 && u.data.all isAlnumChar) = true
      then some u.data else none) = some u.data
  rw [hlen, ha]
  simp

/-! #### Claim theorems about the LinkMatcher -/

/-- C5 counterexample: the claim says every href whose PATH ends in a
supported extension is returned unchanged.  The code tests the end of
the whole href string, so `https://x.com/a.jpg?w=100` — whose path ends
in `.jpg` — resolves to `null` rather than being returned unchanged. -/
theorem C5_counterexample :
    specPathEndsInExt "https://x.com/a.jpg?w=100" = true
    ∧ getImageUrl "https://x.com/a.jpg?w=100"
        ≠ some "https://x.com/a.jpg?w=100" := by
  constructor
  · decide
  · decide

/-- C5 (amended): for every href string that itself ends
(case-insensitively) in one of the supported image extensions,
`getImageUrl` returns the href unchanged. -/
theorem C5_ext_suffix_returns_unchanged (s : String)
    (h : hasImageExtension s = true) : getImageUrl s = some s := by
  simp [getImageUrl, h]

/-- Witness for C5: `https://x.com/a/B.PNG` ends in a supported
extension and is returned unchanged. -/
theorem C5_witness :
    getImageUrl "https://x.com/a/B.PNG" = some "https://x.com/a/B.PNG" :=
  C5_ext_suffix_returns_unchanged "https://x.com/a/B.PNG" (by decide)

/-- C6: an href matching exactly `http(s)://imgur.com/<7 alphanumerics>`
is rewritten to `https://i.imgur.com/<id>.jpeg`; the cited imgur
examples with an extra path segment or a wrong-length id resolve to
`null`; and every href matching neither Rule A (image-extension suffix)
nor Rule B (the imgur pattern) resolves to `null`. -/
theorem C6_imgur_rule :
    (∀ u : String, u.length = 7 → u.data.all isAlnumChar = true →
      getImageUrl ("https://imgur.com/" ++ u)
          = some ("https://i.imgur.com/" ++ u ++ ".jpeg")
        ∧ getImageUrl ("http://imgur.com/" ++ u)
          = some ("https://i.imgur.com/" ++ u ++ ".jpeg"))
    ∧ getImageUrl "https://imgur.com/hI9rZU3" = some "https://i.imgur.com/hI9rZU3.jpeg"
    ∧ getImageUrl "https://imgur.com/hI9rZU3/more" = none
    ∧ getImageUrl "https://imgur.com/short" = none
    ∧ (∀ s : String, hasImageExtension s = false → imgurId s = none →
        getImageUrl s = none) := by
  refine ⟨?_, by decide, by decide, by decide, ?_⟩
  · intro u h7 ha
    have hext1 : hasImageExtension ("https://imgur.com/" ++ u) = false :=
      hasImageExtension_append_alnum "https://imgur.com/" u.data ha h7
    have hext2 : hasImageExtension ("http://imgur.com/" ++ u) = false :=
      hasImageExtension_append_alnum "http://imgur.com/" u.data ha h7
    constructor
    · simp [getImageUrl, hext1, imgurId_https u h7 ha]
    · simp [getImageUrl, hext2, imgurId_http u h7 ha]
  · intro s h1 h2
    simp [getImageUrl, h1, h2]

/-- Witness for C6: the general imgur rewrite applied to the concrete id
`abc1234`, and the general null case applied to a plain page link. -/
theorem C6_witness :
    getImageUrl ("https://imgur.com/" ++ "abc1234")
        = some ("https://i.imgur.com/" ++ "abc1234" ++ ".jpeg")
    ∧ getImageUrl "https://example.com/page" = none :=
  ⟨(C6_imgur_rule.1 "abc1234" (by decide) (by decide)).1,
   C6_imgur_rule.2.2.2.2 "https://example.com/page" (by decide) (by decide)⟩

/-- C10: the extension rule tests the end of the whole href string, not
the end of its path: an href whose query ends in `.png` is returned
unchanged (even though its path does not end in an extension), while an
href whose path ends in `.jpg` but which carries a query resolves to
`null`. -/
theorem C10_whole_string_not_path :
    getImageUrl "https://x.com/page?img=.png" = some "https://x.com/page?img=.png"
    ∧ specPathEndsInExt "https://x.com/page?img=.png" = false
    ∧ specPathEndsInExt "https://x.com/a.jpg?w=100" = true
    ∧ getImageUrl "https://x.com/a.jpg?w=100" = none := by
  refine ⟨by decide, by decide, by decide, by decide⟩

/-! #### Cache lemmas and the capacity claim -/

theorem mapSet_length {α : Type} (l : List (String × α)) (k : String) (v : α) :
    (mapSet l k v).length ≤ l.length + 1 := by
  unfold mapSet
  split
  · simp
  · simp

theorem mapDelete_cons_self {α : Type} (p : String × α) (t : List (String × α)) :
    mapDelete (p :: t) p.1 = t := by
  simp [mapDelete]

theorem cacheSet_length_le {α : Type} (l : List (String × α)) (k : String) (v : α)
    (h : l.length ≤ CACHE_SIZE_LIMIT) :
    (cacheSet l k v).length ≤ CACHE_SIZE_LIMIT := by
  have hlen : (mapSet l k v).length ≤ CACHE_SIZE_LIMIT + 1 := by
    have := mapSet_length l k v
    omega
  simp only [cacheSet]
  by_cases hgt : (mapSet l k v).length > CACHE_SIZE_LIMIT
  · rw [if_pos hgt]
    cases hm : mapSet l k v with
    | nil => rw [hm] at hgt; simp at hgt
    | cons p t =>
      rw [hm] at hgt hlen
      show (mapDelete (p :: t) p.1).length ≤ CACHE_SIZE_LIMIT
      rw [mapDelete_cons_self]
      simp only [List.length_cons] at hlen
      omega
  · rw [if_neg hgt]
    omega

set_option maxRecDepth 100000 in
/-- C1: the cache size never exceeds the capacity of 50 after any
sequence of inserts, and inserting the 51 distinct demonstration URLs
into the empty cache leaves exactly 50 entries with the first URL absent
and the 2nd through 51st present, in insertion order. -/
theorem C1_cache_capacity :
    (∀ (α : Type) (ops : List (String × α)),
      (runInserts ops).length ≤ CACHE_SIZE_LIMIT)
    ∧ (runInserts (demoUrls.map (fun u => (u, ())))).length = 50
    ∧ cacheHas (runInserts (demoUrls.map (fun u => (u, ())))) "u0" = false
    ∧ (runInserts (demoUrls.map (fun u => (u, ())))).map Prod.fst
        = demoUrls.drop 1 := by
  refine ⟨?_, by decide, by decide, by decide⟩
  intro α ops
  have main : ∀ (ops : List (String × α)) (c : List (String × α)),
      c.length ≤ CACHE_SIZE_LIMIT →
      (ops.foldl (fun acc p => cacheSet acc p.1 p.2) c).length
        ≤ CACHE_SIZE_LIMIT := by
    intro ops
    induction ops with
    | nil => intro c h; simpa using h
    | cons p t ih =>
      intro c h
      exact ih _ (cacheSet_length_le _ _ _ h)
  exact main ops [] (by simp)

/-! #### Controller lemmas -/

theorem modifyAt_length {α : Type} (l : List α) (i : Nat) (f : α → α) :
    (modifyAt l i f).length = l.length := by
  induction l generalizing i with
  | nil => rfl
  | cons c t ih =>
    cases i with
    | zero => rfl
    | succ n => simp [modifyAt, ih]

theorem getElem?_modifyAt_self {α : Type} (l : List α) (i : Nat) (f : α → α) :
    (modifyAt l i f)[i]? = (l[i]?).map f := by
  induction l generalizing i with
  | nil => rfl
  | cons c t ih =>
    cases i with
    | zero => simp [modifyAt]
    | succ n => simpa [modifyAt] using ih n

theorem map_modifyAt {α β : Type} (l : List α) (i : Nat) (f : α → α) (g : α → β)
    (h : ∀ a, g (f a) = g a) : (modifyAt l i f).map g = l.map g := by
  induction l generalizing i with
  | nil => rfl
  | cons c t ih =>
    cases i with
    | zero => simp [modifyAt, h]
    | succ n => simp [modifyAt, ih]

theorem currentImageUrl_cstep (vp : Viewport) (st : CtrlState) (e : CEv) :
    (cstep vp st e).currentImageUrl = trackedUpd st.currentImageUrl e := by
  cases e with
  | hover ev url =>
    show (showPreviewStep st ev url).currentImageUrl = some url
    simp only [showPreviewStep, hideAllImageLoads]
    split <;> rfl
  | hide => rfl
  | loadOk url ev =>
    show ((onloadStep st { capturedUrl := url, ev := ev }).2).currentImageUrl
      = st.currentImageUrl
    unfold onloadStep
    by_cases hg : some url ≠ st.currentImageUrl
    · rw [if_pos hg]
    · rw [if_neg hg]
      rcases hel : st.pc.element with _ | i <;> rfl
  | loadErr url ev =>
    show (onerrorStep vp st { capturedUrl := url, ev := ev }).currentImageUrl
      = st.currentImageUrl
    unfold onerrorStep
    by_cases hg : some url ≠ st.currentImageUrl
    · rw [if_pos hg]
    · rw [if_neg hg]

theorem runTrace_currentImageUrl (vp : Viewport) (tr : List CEv) :
    (runTrace vp tr).currentImageUrl = lastTracked tr := by
  have main : ∀ (tr : List CEv) (st : CtrlState),
      (tr.foldl (cstep vp) st).currentImageUrl
        = tr.foldl trackedUpd st.currentImageUrl := by
    intro tr
    induction tr with
    | nil => intro st; rfl
    | cons e t ih =>
      intro st
      rw [List.foldl_cons, List.foldl_cons, ih, currentImageUrl_cstep]
  exact main tr initCtrl

theorem onload_stale (st : CtrlState) (pl : PendingLoad)
    (h : st.currentImageUrl ≠ some pl.capturedUrl) :
    onloadStep st pl = (none, st) := by
  unfold onloadStep
  rw [if_pos (fun hh => h hh.symm)]

theorem onerror_stale (vp : Viewport) (st : CtrlState) (pl : PendingLoad)
    (h : st.currentImageUrl ≠ some pl.capturedUrl) :
    onerrorStep vp st pl = st := by
  unfold onerrorStep
  rw [if_pos (fun hh => h hh.symm)]

/-! #### Claim theorems about the controller -/

/-- C2: along every trace, the tracking token `currentImageUrl` equals
the URL of the most recently initiated hover not yet hidden; and a load
completion — success or failure — whose captured URL no longer equals
the tracked URL leaves the whole state unchanged, regardless of where in
the trace it fires.  Hence only the most recently initiated hover can
have its load outcome rendered. -/
theorem C2_supersession (vp : Viewport) (tr : List CEv) (c : String) (ev : MouseEv) :
    (runTrace vp tr).currentImageUrl = lastTracked tr
    ∧ ((runTrace vp tr).currentImageUrl ≠ some c →
        cstep vp (runTrace vp tr) (CEv.loadOk c ev) = runTrace vp tr
        ∧ cstep vp (runTrace vp tr) (CEv.loadErr c ev) = runTrace vp tr) := by
  refine ⟨runTrace_currentImageUrl vp tr, fun h => ⟨?_, ?_⟩⟩
  · show (onloadStep (runTrace vp tr) { capturedUrl := c, ev := ev }).2
      = runTrace vp tr
    rw [onload_stale _ _ h]
  · exact onerror_stale _ _ _ h

/-- Witness for C2: after hovering URL a and then URL b, a completion of
the superseded load of URL a (in either direction) is a no-op. -/
theorem C2_witness :
    ((runTrace ⟨1000, 1000, 0, 0⟩
        [CEv.hover ⟨0, 0⟩ "https://a.example/x.png",
         CEv.hover ⟨5, 5⟩ "https://b.example/y.png"]).currentImageUrl
      = lastTracked
        [CEv.hover ⟨0, 0⟩ "https://a.example/x.png",
         CEv.hover ⟨5, 5⟩ "https://b.example/y.png"])
    ∧ (cstep ⟨1000, 1000, 0, 0⟩
        (runTrace ⟨1000, 1000, 0, 0⟩
          [CEv.hover ⟨0, 0⟩ "https://a.example/x.png",
           CEv.hover ⟨5, 5⟩ "https://b.example/y.png"])
        (CEv.loadOk "https://a.example/x.png" ⟨0, 0⟩)
        = runTrace ⟨1000, 1000, 0, 0⟩
          [CEv.hover ⟨0, 0⟩ "https://a.example/x.png",
           CEv.hover ⟨5, 5⟩ "https://b.example/y.png"]
      ∧ cstep ⟨1000, 1000, 0, 0⟩
        (runTrace ⟨1000, 1000, 0, 0⟩
          [CEv.hover ⟨0, 0⟩ "https://a.example/x.png",
           CEv.hover ⟨5, 5⟩ "https://b.example/y.png"])
        (CEv.loadErr "https://a.example/x.png" ⟨0, 0⟩)
        = runTrace ⟨1000, 1000, 0, 0⟩
          [CEv.hover ⟨0, 0⟩ "https://a.example/x.png",
           CEv.hover ⟨5, 5⟩ "https://b.example/y.png"]) :=
  ⟨(C2_supersession ⟨1000, 1000, 0, 0⟩
      [CEv.hover ⟨0, 0⟩ "https://a.example/x.png",
       CEv.hover ⟨5, 5⟩ "https://b.example/y.png"]
      "https://a.example/x.png" ⟨0, 0⟩).1,
   (C2_supersession ⟨1000, 1000, 0, 0⟩
      [CEv.hover ⟨0, 0⟩ "https://a.example/x.png",
       CEv.hover ⟨5, 5⟩ "https://b.example/y.png"]
      "https://a.example/x.png" ⟨0, 0⟩).2 (by decide)⟩

/-- C9: a `showPreview` call whose URL is present in the cache
increments the hit counter by exactly one and leaves the cache
unchanged (so repeated lookups keep incrementing); a call whose URL is
absent leaves the hit counter unchanged. -/
theorem C9_hit_counter (st : CtrlState) (ev : MouseEv) (url : String) :
    (cacheHas st.cache url = true →
      (showPreviewStep st ev url).cacheHits = st.cacheHits + 1
      ∧ (showPreviewStep st ev url).cache = st.cache)
    ∧ (cacheHas st.cache url = false →
      (showPreviewStep st ev url).cacheHits = st.cacheHits
      ∧ (showPreviewStep st ev url).cache = st.cache) := by
  constructor <;> intro h <;>
    exact ⟨by simp [showPreviewStep, hideAllImageLoads, h],
           by simp [showPreviewStep, hideAllImageLoads, h]⟩

/-- Witness for C9: a hit on a one-entry cache raises the counter from 3
to 4; a miss on the empty cache leaves it at 0. -/
theorem C9_witness :
    ((showPreviewStep
        { cache := [("https://hit.example/a.png",
            { src := "https://hit.example/a.png", loadTime := 5, timestamp := 100 })],
          cacheHits := 3, currentImageUrl := none,
          pc := { dom := [], element := none }, pendingLoads := [] }
        ⟨0, 0⟩ "https://hit.example/a.png").cacheHits = 3 + 1
      ∧ (showPreviewStep
        { cache := [("https://hit.example/a.png",
            { src := "https://hit.example/a.png", loadTime := 5, timestamp := 100 })],
          cacheHits := 3, currentImageUrl := none,
          pc := { dom := [], element := none }, pendingLoads := [] }
        ⟨0, 0⟩ "https://hit.example/a.png").cache
        = [("https://hit.example/a.png",
            { src := "https://hit.example/a.png", loadTime := 5, timestamp := 100 })])
    ∧ (showPreviewStep initCtrl ⟨0, 0⟩ "https://miss.example/b.png").cacheHits = 0 :=
  ⟨(C9_hit_counter
      { cache := [("https://hit.example/a.png",
          { src := "https://hit.example/a.png", loadTime := 5, timestamp := 100 })],
        cacheHits := 3, currentImageUrl := none,
        pc := { dom := [], element := none }, pendingLoads := [] }
      ⟨0, 0⟩ "https://hit.example/a.png").1 (by decide),
   ((C9_hit_counter initCtrl ⟨0, 0⟩ "https://miss.example/b.png").2 (by decide)).1⟩

theorem showError_adjust_class_children (p : PCState) (vp : Viewport) (ev : MouseEv)
    (msg : String) (hwf : pcWf p = true) :
    ((currentContainer (pcAdjustPosition (pcShowError p msg) vp ev)).map
        (fun c => c.classTokens)) = some ["error"]
    ∧ ((currentContainer (pcAdjustPosition (pcShowError p msg) vp ev)).map
        (fun c => c.children)) = some [ChildNode.errorMessage msg] := by
  obtain ⟨dom, el⟩ := p
  rcases el with _ | i
  · rcases dom with _ | ⟨c0, rest⟩
    · exact ⟨rfl, rfl⟩
    · constructor <;>
        simp [pcShowError, pcCreate, updateElem, pcAdjustPosition,
          currentContainer, modifyAt]
  · have hi : i < dom.length := by simpa [pcWf] using hwf
    constructor <;>
      simp [pcShowError, pcAdjustPosition, updateElem, currentContainer,
        getElem?_modifyAt_self, List.getElem?_eq_getElem hi]

/-- C7 counterexample: at a concrete failing load whose URL is still
tracked, the message rendered in the container is the fixed string
"Failed to load image", which is not the string "Image failed to load"
that the claim asserts. -/
theorem C7_counterexample :
    ((currentContainer (onerrorStep ⟨1000, 1000, 0, 0⟩
          (showPreviewStep initCtrl ⟨0, 0⟩ "https://down.example/p.jpg")
          { capturedUrl := "https://down.example/p.jpg", ev := ⟨0, 0⟩ }).pc).map
        (fun c => c.children))
      = some [ChildNode.errorMessage "Failed to load image"]
    ∧ "Failed to load image" ≠ "Image failed to load" :=
  ⟨by decide, by decide⟩

/-- C7 (amended): when an image load fails while its captured URL still
equals the tracked URL, the onerror handler handles the failure entirely
locally (the step is a total function into controller states: nothing
propagates to a caller), puts the container into the error state, and
renders the fixed message "Failed to load image" in it. -/
theorem C7_error_state_and_message (vp : Viewport) (st : CtrlState) (pl : PendingLoad)
    (hcur : st.currentImageUrl = some pl.capturedUrl)
    (hwf : pcWf st.pc = true) :
    ((currentContainer (onerrorStep vp st pl).pc).map (fun c => c.classTokens))
        = some ["error"]
    ∧ ((currentContainer (onerrorStep vp st pl).pc).map (fun c => c.children))
        = some [ChildNode.errorMessage "Failed to load image"] := by
  have hpc : (onerrorStep vp st pl).pc
      = pcAdjustPosition (pcShowError st.pc "Failed to load image") vp pl.ev := by
    unfold onerrorStep
    rw [if_neg (by rw [hcur]; exact not_not_intro rfl)]
  rw [hpc]
  exact showError_adjust_class_children st.pc vp pl.ev _ hwf

/-- Witness for C7: a concrete failing load with matching tracked URL
renders the error class and the fixed message. -/
theorem C7_witness :
    ((currentContainer (onerrorStep ⟨800, 600, 0, 0⟩
        (showPreviewStep initCtrl ⟨3, 4⟩ "https://err.example/q.png")
        { capturedUrl := "https://err.example/q.png", ev := ⟨3, 4⟩ }).pc).map
      (fun c => c.classTokens)) = some ["error"]
    ∧ ((currentContainer (onerrorStep ⟨800, 600, 0, 0⟩
        (showPreviewStep initCtrl ⟨3, 4⟩ "https://err.example/q.png")
        { capturedUrl := "https://err.example/q.png", ev := ⟨3, 4⟩ }).pc).map
      (fun c => c.children)) = some [ChildNode.errorMessage "Failed to load image"] :=
  C7_error_state_and_message ⟨800, 600, 0, 0⟩
    (showPreviewStep initCtrl ⟨3, 4⟩ "https://err.example/q.png")
    { capturedUrl := "https://err.example/q.png", ev := ⟨3, 4⟩ }
    (by decide) (by decide)

/-- C4: on a cache miss whose load succeeds while its URL is still
tracked, the onload handler does NOT transition the controller to a
shown state: it removes the `loading` class and then throws a
ReferenceError (undeclared identifier `loadTime`); the image element is
never inserted into the container (generally, onload never changes any
container children) and the container is never repositioned (its style
stays at the `positionAtCursor` values). -/
theorem C4_onload_never_shows :
    onloadStep (showPreviewStep initCtrl ⟨0, 0⟩ "https://slow.example/pic.png")
        { capturedUrl := "https://slow.example/pic.png", ev := ⟨0, 0⟩ }
      = (some JsError.referenceError,
          { cache := [], cacheHits := 0,
            currentImageUrl := some "https://slow.example/pic.png",
            pc := { dom := [{ classTokens := [], children := [],
                              styleTop := some 20, styleLeft := some 20,
                              zIndex := some "10000",
                              offsetWidth := 0, offsetHeight := 0 }],
                    element := some 0 },
            pendingLoads := [{ capturedUrl := "https://slow.example/pic.png",
                               ev := ⟨0, 0⟩ }] })
    ∧ (∀ (st : CtrlState) (pl : PendingLoad),
        ((onloadStep st pl).2).pc.dom.map (fun c => c.children)
          = st.pc.dom.map (fun c => c.children)) := by
  refine ⟨by decide, ?_⟩
  intro st pl
  unfold onloadStep
  by_cases hg : some pl.capturedUrl ≠ st.currentImageUrl
  · rw [if_pos hg]
  · rw [if_neg hg]
    rcases hel : st.pc.element with _ | i
    · rfl
    · show (modifyAt st.pc.dom i _).map (fun c => c.children)
        = st.pc.dom.map (fun c => c.children)
      exact map_modifyAt _ _ _ _ (fun a => rfl)

/-- C8: the identifier `loadTime` read by the CacheEntry object literal
is not among the identifiers in scope in the onload closure, so the
handler throws a ReferenceError before `imageCache.set` runs: the cache
after any onload equals the cache before it, and on the concrete miss
trace the cache stays empty — no CacheEntry is ever inserted. -/
theorem C8_cache_entry_never_inserted :
    onloadScope.contains "loadTime" = false
    ∧ (∀ (st : CtrlState) (pl : PendingLoad),
        ((onloadStep st pl).2).cache = st.cache)
    ∧ (onloadStep (showPreviewStep initCtrl ⟨0, 0⟩ "https://x.example/a.jpg")
          { capturedUrl := "https://x.example/a.jpg", ev := ⟨0, 0⟩ }).1
        = some JsError.referenceError
    ∧ ((onloadStep (showPreviewStep initCtrl ⟨0, 0⟩ "https://x.example/a.jpg")
          { capturedUrl := "https://x.example/a.jpg", ev := ⟨0, 0⟩ }).2).cache
        = [] := by
  refine ⟨by decide, ?_, by decide, by decide⟩
  intro st pl
  unfold onloadStep
  by_cases hg : some pl.capturedUrl ≠ st.currentImageUrl
  · rw [if_pos hg]
  · rw [if_neg hg]
    rcases hel : st.pc.element with _ | i <;> rfl

/-- C3: in the second script variant, running `showPreview`, letting its
image load (which appends the container), then running `showPreview`
again before any `hidePreview` and letting the second image load leaves
TWO container nodes in the document: the claimed at-most-one invariant
fails, and the second `showPreview` tears nothing down. -/
theorem C3_second_variant_two_containers :
    (v2run [V2Ev.show, V2Ev.load, V2Ev.show, V2Ev.load]).doc = [0, 1]
    ∧ (v2run [V2Ev.show, V2Ev.load, V2Ev.show, V2Ev.load]).doc.length = 2 :=
  ⟨by decide, by decide⟩

/-! #### The first variant maintains the single-container invariant

Supporting result (not tied to a claim): in the first script variant,
every trace of hover, hide and load-completion events leaves at most one
container node in the document, because `PreviewContainer.create` reuses
the node found by id and `removeAll` deletes all of them. -/

theorem updateElem_dom_length (p : PCState) (f : Container → Container) :
    (updateElem p f).dom.length = p.dom.length := by
  rcases hel : p.element with _ | i <;> simp [updateElem, hel, modifyAt_length]

theorem pcCreate_dom_le (p : PCState) (h : p.dom.length ≤ 1) :
    (pcCreate p).dom.length ≤ 1 := by
  rcases hd : p.dom with _ | ⟨c, rest⟩
  · simp [pcCreate, hd]
  · rw [hd] at h
    simpa [pcCreate, hd] using h

theorem pcShowLoading_dom_le (p : PCState) (h : p.dom.length ≤ 1) :
    (pcShowLoading p).dom.length ≤ 1 := by
  unfold pcShowLoading
  rw [updateElem_dom_length]
  split
  · exact pcCreate_dom_le p h
  · exact h

theorem pcShowError_dom_le (p : PCState) (msg : String) (h : p.dom.length ≤ 1) :
    (pcShowError p msg).dom.length ≤ 1 := by
  unfold pcShowError
  rw [updateElem_dom_length]
  split
  · exact pcCreate_dom_le p h
  · exact h

theorem pcPositionAtCursor_dom_length (p : PCState) (ev : MouseEv) :
    (pcPositionAtCursor p ev).dom.length = p.dom.length := by
  unfold pcPositionAtCursor
  rcases hel : p.element with _ | i
  · rfl
  · rw [updateElem_dom_length]

theorem pcAdjustPosition_dom_length (p : PCState) (vp : Viewport) (ev : MouseEv) :
    (pcAdjustPosition p vp ev).dom.length = p.dom.length := by
  unfold pcAdjustPosition
  rcases hel : p.element with _ | i
  · rfl
  · rw [updateElem_dom_length]

theorem cstep_dom_le (vp : Viewport) (st : CtrlState) (e : CEv)
    (h : st.pc.dom.length ≤ 1) : (cstep vp st e).pc.dom.length ≤ 1 := by
  cases e with
  | hover ev url =>
    show (showPreviewStep st ev url).pc.dom.length ≤ 1
    have hpc : ∀ b : Bool, (showPreviewStep st ev url).pc
        = pcPositionAtCursor (pcShowLoading (pcCreate st.pc)) ev := by
      intro b
      simp only [showPreviewStep, hideAllImageLoads]
      split <;> rfl
    rw [hpc true, pcPositionAtCursor_dom_length]
    exact pcShowLoading_dom_le _ (pcCreate_dom_le _ h)
  | hide => simp [cstep, hidePreviewStep, pcRemoveAll]
  | loadOk url ev =>
    show ((onloadStep st { capturedUrl := url, ev := ev }).2).pc.dom.length ≤ 1
    unfold onloadStep
    by_cases hg : some url ≠ st.currentImageUrl
    · rw [if_pos hg]; exact h
    · rw [if_neg hg]
      rcases hel : st.pc.element with _ | i
      · exact h
      · show (modifyAt st.pc.dom i _).length ≤ 1
        rw [modifyAt_length]
        exact h
  | loadErr url ev =>
    show (onerrorStep vp st { capturedUrl := url, ev := ev }).pc.dom.length ≤ 1
    unfold onerrorStep
    by_cases hg : some url ≠ st.currentImageUrl
    · rw [if_pos hg]; exact h
    · rw [if_neg hg]
      show (pcAdjustPosition (pcShowError st.pc "Failed to load image") vp ev).dom.length ≤ 1
      rw [pcAdjustPosition_dom_length]
      exact pcShowError_dom_le _ _ h

theorem mainVariant_single_container (vp : Viewport) (tr : List CEv) :
    (runTrace vp tr).pc.dom.length ≤ 1 := by
  have main : ∀ (tr : List CEv) (st : CtrlState), st.pc.dom.length ≤ 1 →
      (tr.foldl (cstep vp) st).pc.dom.length ≤ 1 := by
    intro tr
    induction tr with
    | nil => intro st h; simpa using h
    | cons e t ih => intro st h; exact ih _ (cstep_dom_le vp st e h)
  exact main tr initCtrl (by simp [initCtrl])

end ImagePreview
